import Mathlib

/-!
Verification development for the equity-performance-index-dashboard
repository.  The definitions below are a shallow embedding of the
cache/ingestion orchestration layer of `src/backend/main.py`:

* the load-state registry (`INDEX_LOAD_STATUS` and the per-derivation
  status maps),
* the response cache (`API_CACHE`, `get_cached_response`,
  `set_cached_response`, `invalidate_index_cache`),
* the warehouse loader (`_load_index_from_bq`) with explicit fault
  injection at each DuckDB operation,
* the unified-view rebuild (`_rebuild_unified_view`),
* the series precomputers (`_precompute_sector_series`,
  `_precompute_industry_series`, `_precompute_stock_returns`,
  `_prewarm_sector_caches`) abstracted to their registry/: table effects,
* the orchestration entry points (`ensure_index_loaded`,
  `refresh_single_index`, `preload_all_indices`),
* the request handlers `/summary`, `/rankings`, `/rankings/custom`.

Python dicts are modelled as association lists with first-occurrence
update, wall-clock times as integers (seconds), DuckDB tables as a map
from table names to an abstract content identifier, and data fetched
from BigQuery as opaque parameters of the loader.  Exceptions raised by
external collaborators (BigQuery, DuckDB) are modelled by explicit
fault parameters naming the operation that raises.
-/

set_option maxHeartbeats 1000000

namespace Dashboard

/-! ### Association lists (Python dict model)

A Python dict keyed by strings is modelled as a `List (κ × α)` with
unique keys; `setA` replaces the first binding of the key (dict update
keeps the insertion position) and appends a fresh binding otherwise,
matching CPython insertion-order semantics. -/

def lookupA {κ α : Type} [DecidableEq κ] : List (κ × α) → κ → Option α
  | [], _ => none
  | p :: ps, k => if p.1 = k then some p.2 else lookupA ps k

def setA {κ α : Type} [DecidableEq κ] : List (κ × α) → κ → α → List (κ × α)
  | [], k, v => [(k, v)]
  | p :: ps, k, v => if p.1 = k then (k, v) :: ps else p :: setA ps k v

theorem lookupA_setA_self {κ α : Type} [DecidableEq κ] (l : List (κ × α)) (k : κ) (v : α) :
    lookupA (setA l k v) k = some v := by
  induction l with
  | nil => simp [setA, lookupA]
  | cons p ps ih =>
    by_cases h : p.1 = k
    · simp [setA, h, lookupA]
    · simp [setA, h, lookupA, ih]

theorem lookupA_setA_ne {κ α : Type} [DecidableEq κ] (l : List (κ × α)) (k k' : κ) (v : α)
    (h : k' ≠ k) : lookupA (setA l k v) k' = lookupA l k' := by
  induction l with
  | nil => simp [setA, lookupA, Ne.symm h]
  | cons p ps ih =>
    by_cases hp : p.1 = k
    · subst hp
      simp only [setA, if_pos rfl]
      simp [lookupA, Ne.symm h]
    · simp only [setA, if_neg hp]
      by_cases hp' : p.1 = k'
      · simp [lookupA, hp']
      · simp [lookupA, hp', ih]

theorem lookupA_filter_ne {κ α : Type} [DecidableEq κ] (l : List (κ × α)) (n m : κ)
    (h : m ≠ n) :
    lookupA (l.filter (fun p => decide (p.1 ≠ n))) m = lookupA l m := by
  induction l with
  | nil => simp [lookupA]
  | cons p ps ih =>
    rw [List.filter_cons]
    by_cases hp : p.1 = n
    · have hm : ¬ p.1 = m := fun hmm => h (by rw [← hmm, hp])
      have hd : decide (p.1 ≠ n) = false := by simp [hp]
      rw [hd]
      simp only [Bool.false_eq_true, if_false, ih]
      simp [lookupA, hm]
    · have hd : decide (p.1 ≠ n) = true := by simp [hp]
      rw [hd]
      simp only [if_true]
      by_cases hm : p.1 = m
      · simp [lookupA, hm]
      · simp only [lookupA, if_neg hm]
        exact ih

/-! ### Response cache (`src/backend/main.py` lines 117-137)

`API_CACHE` maps a cache key to `(data, timestamp)`.  A cached value is
either a JSON list of records (summary-style endpoints) or the
`{"selected": {"top": ..., "bottom": ...}}` dict built by the rankings
endpoints; the distinction matters because Python truthiness at the
read sites treats an empty list as a miss but a non-empty dict is
always truthy.  Records are abstracted to `Nat` identifiers. -/

inductive CacheVal where
  /-- A JSON list payload (e.g. the record list served by `/summary`). -/
  | records (rs : List Nat)
  /-- The rankings response dict; as a non-empty Python dict it is always truthy. -/
  | rankingDict (top bottom : List Nat)
deriving DecidableEq, Repr

/-- Python truthiness of a cached payload: an empty list is falsy, a
dict with at least one key is truthy. -/
def CacheVal.truthy : CacheVal → Bool
  | .records rs => !rs.isEmpty
  | .rankingDict _ _ => true

abbrev ApiCache := List (String × (CacheVal × Int))

/-- CACHE_TTL = 1800 (seconds), line 119. -/
def CACHE_TTL : Int := 1800

/-- Embeds `get_cached_response` (lines 122-127): a hit younger than the
TTL returns the stored payload, anything else reads as absent. -/
def get_cached_response (cache : ApiCache) (now : Int) (cache_key : String) : Option CacheVal :=
  match lookupA cache cache_key with
  | some (data, timestamp) => if now - timestamp < CACHE_TTL then some data else none
  | none => none

/-- Embeds `set_cached_response` (lines 130-131). -/
def set_cached_response (cache : ApiCache) (now : Int) (cache_key : String) (data : CacheVal) :
    ApiCache :=
  setA cache cache_key (data, now)

/-- Substring test used by `invalidate_index_cache` (`index_key in k`). -/
def strContains (s sub : String) : Bool := 2 ≤ (s.splitOn sub).length

/-- Embeds `invalidate_index_cache` (lines 134-137): drop every entry
whose key contains the index key as a substring. -/
def invalidate_index_cache (index_key : String) (cache : ApiCache) : ApiCache :=
  cache.filter (fun e => !(strContains e.1 index_key))

/-! ### Configuration (`MARKET_INDICES`, lines 28-35)

The six configured market indices, in dict insertion order.  The
BigQuery `table_id` values depend only on `PROJECT_ID` and are elided:
the claims concern the keys. -/

def MARKET_INDICES : List String :=
  ["stoxx50", "sp500", "ftse100", "nikkei225", "csi300", "nifty50"]

/-! ### Load-state registries (lines 107-111)

`INDEX_LOAD_STATUS[k]` is a dict `{"loaded": _, "loading": _, "row_count": _}`;
the series status dicts hold `{"ready": _, "computing": _}` (their
`row_count`/`rows`/`periods` bookkeeping fields are elided — no claim
mentions them). -/

structure IndexStatus where
  loaded : Bool
  loading : Bool
  row_count : Nat
deriving DecidableEq, Repr

structure SeriesStatus where
  ready : Bool
  computing : Bool
deriving DecidableEq, Repr

/-! ### DuckDB table names

The backend builds table names with f-strings (`f"prices_{index_key}"`,
`f"latest_{index_key}"`, `f"sector_series_{index_key}"`, ...).  We keep
them as a structured namespace so distinctness of the name families is
by construction. -/

inductive TName where
  | prices (k : String)
  | latest (k : String)
  | sectorSeries (k : String)
  | industrySeries (k : String)
  | stockReturns (k : String)
  | indexPrices
  | latestIndexPrices
deriving DecidableEq, Repr

/-- The in-memory DuckDB database: a map from table names to an opaque
content identifier, plus the two unified views.  A view is recorded as
the list of index keys whose tables it unions (the `CREATE VIEW ...
UNION ALL` statement of `_rebuild_unified_view`); `[]` means the view
does not exist / unions nothing. -/
structure DB where
  tables : List (TName × Nat)
  pricesView : List String
  latestView : List String
deriving DecidableEq, Repr

/-- `DROP TABLE IF EXISTS name`. -/
def dropTable (db : DB) (name : TName) : DB :=
  { db with tables := db.tables.filter (fun p => decide (p.1 ≠ name)) }

/-- `CREATE TABLE name AS ...` with content `c` (the tables dropped just
before are recreated; `setA` also covers `CREATE OR REPLACE` uses). -/
def createTable (db : DB) (name : TName) (c : Nat) : DB :=
  { db with tables := setA db.tables name c }

/-- The keys the source iterates over in
`[k for k, v in INDEX_LOAD_STATUS.items() if v.get("loaded")]`. -/
def loadedKeysOf (sts : List (String × IndexStatus)) : List String :=
  (sts.filter (fun p => p.2.loaded)).map (fun p => p.1)

/-- Embeds `_rebuild_unified_view` (lines 248-260): recreate the
`prices` and `latest_prices` views as a union of all tables of indices
currently marked loaded in `INDEX_LOAD_STATUS`; if no index is marked
loaded the function returns early and the views are left as they were. -/
def rebuild_unified_view (sts : List (String × IndexStatus)) (db : DB) : DB :=
  let loaded_indices := loadedKeysOf sts
  if loaded_indices.isEmpty then db
  else { db with pricesView := loaded_indices, latestView := loaded_indices }

/-! ### Warehouse loader (`_load_index_from_bq`, lines 191-245)

The BigQuery fetch and the SQL templates live outside the backend
process; the loader is parameterised by what they produce:
`dfRows = len(df)` (the raw rows fetched), `newRaw`/`newLatest` are the
content identifiers of the recreated `prices_{k}` / `latest_{k}`
tables, and `tableCount` is the result of the final
`SELECT COUNT(*) FROM prices_{k}`.

Every exception path of the Python function is represented by a
`LoadFault` naming the operation that raises; the `try/except` at lines
201/243-245 catches it and returns `0`, with no rollback of DuckDB
operations already performed. -/

structure LoadEnv where
  dfRows : Nat
  newRaw : Nat
  newLatest : Nat
  tableCount : Nat
deriving DecidableEq, Repr

inductive LoadFault where
  | ok            -- no exception
  | fetch         -- the BigQuery query / to_dataframe raises
  | dropRaw       -- DROP TABLE IF EXISTS prices_{k} raises
  | createRaw     -- CREATE TABLE prices_{k} (dedup SQL) raises
  | createIdx     -- one of the CREATE INDEX statements raises
  | dropLatest    -- DROP TABLE IF EXISTS latest_{k} raises
  | createLatest  -- CREATE TABLE latest_{k} raises
  | rebuild       -- _rebuild_unified_view raises
  | count         -- SELECT COUNT(*) raises
deriving DecidableEq, Repr

/-- Embeds `_load_index_from_bq(index_key)`: returns the row count and
the DuckDB state after the call.  A raising operation performs no
effect; everything executed before it is kept (DuckDB autocommits each
statement — there is no enclosing transaction in the source). -/
def load_index_from_bq (index_key : String) (sts : List (String × IndexStatus)) (db : DB)
    (env : LoadEnv) (fault : LoadFault) : Nat × DB :=
  if fault = .fetch then (0, db)
  else if env.dfRows = 0 then (0, db)
  else if fault = .dropRaw then (0, db)
  else
    let db := dropTable db (.prices index_key)
    if fault = .createRaw then (0, db)
    else
      let db := createTable db (.prices index_key) env.newRaw
      if fault = .createIdx then (0, db)
      else if fault = .dropLatest then (0, db)
      else
        let db := dropTable db (.latest index_key)
        if fault = .createLatest then (0, db)
        else
          let db := createTable db (.latest index_key) env.newLatest
          if fault = .rebuild then (0, db)
          else
            let db := rebuild_unified_view sts db
            if fault = .count then (0, db)
            else (env.tableCount, db)

/-! ### Whole-process state -/

structure SysState where
  indexLoadStatus : List (String × IndexStatus)
  sectorStatus : List (String × SeriesStatus)
  industryStatus : List (String × SeriesStatus)
  returnsStatus : List (String × SeriesStatus)
  prewarmStatus : List (String × SeriesStatus)
  apiCache : ApiCache
  allSeriesCache : List String
  db : DB
  /-- Instrumentation suggested by the spec's testable property
  "verifiable via a counter on the loader invocation": the number of
  `_load_index_from_bq` runs started so far. -/
  loaderInvocations : Nat
deriving DecidableEq, Repr

def initState : SysState :=
  { indexLoadStatus := [], sectorStatus := [], industryStatus := [], returnsStatus := [],
    prewarmStatus := [], apiCache := [], allSeriesCache := [], db := ⟨[], [], []⟩,
    loaderInvocations := 0 }

/-! ### Series precomputers (lines 263-432)

Each precomputer sets its status to `computing`, then (under the write
lock) drops and recreates its table and marks itself `ready`; on an
exception it marks itself not ready and not computing.  The success
flag and the new table content are parameters (the SQL bodies are in
external template files).  `_prewarm_sector_caches` writes warmed
entries into `API_CACHE`; those writes are elided (no claim depends on
them), only its status bookkeeping is kept. -/

structure PrecSpec where
  sectorOk : Bool
  sectorC : Nat
  industryOk : Bool
  industryC : Nat
  returnsOk : Bool
  returnsC : Nat
  prewarmOk : Bool
deriving DecidableEq, Repr

/-- Embeds `_precompute_sector_series` (lines 263-304); on success the
`ALL_SERIES_CACHE[index_key]` entry is (re)populated. -/
def precompute_sector_series (index_key : String) (ok : Bool) (c : Nat) (st : SysState) :
    SysState :=
  if ok then
    { st with
      db := createTable (dropTable st.db (.sectorSeries index_key)) (.sectorSeries index_key) c
      sectorStatus := setA st.sectorStatus index_key ⟨true, false⟩
      allSeriesCache :=
        if st.allSeriesCache.contains index_key then st.allSeriesCache
        else st.allSeriesCache ++ [index_key] }
  else { st with sectorStatus := setA st.sectorStatus index_key ⟨false, false⟩ }

/-- Embeds `_precompute_industry_series` (lines 307-338). -/
def precompute_industry_series (index_key : String) (ok : Bool) (c : Nat) (st : SysState) :
    SysState :=
  if ok then
    { st with
      db := createTable (dropTable st.db (.industrySeries index_key)) (.industrySeries index_key) c
      industryStatus := setA st.industryStatus index_key ⟨true, false⟩ }
  else { st with industryStatus := setA st.industryStatus index_key ⟨false, false⟩ }

/-- Embeds `_precompute_stock_returns` (lines 341-392); the "no data"
and exception outcomes are both represented by `ok = false`. -/
def precompute_stock_returns (index_key : String) (ok : Bool) (c : Nat) (st : SysState) :
    SysState :=
  if ok then
    { st with
      db := createTable (dropTable st.db (.stockReturns index_key)) (.stockReturns index_key) c
      returnsStatus := setA st.returnsStatus index_key ⟨true, false⟩ }
  else { st with returnsStatus := setA st.returnsStatus index_key ⟨false, false⟩ }

/-- Embeds `_prewarm_sector_caches` (lines 395-432), status only. -/
def prewarm_sector_caches (index_key : String) (ok : Bool) (st : SysState) : SysState :=
  if ok then { st with prewarmStatus := setA st.prewarmStatus index_key ⟨true, false⟩ }
  else { st with prewarmStatus := setA st.prewarmStatus index_key ⟨false, false⟩ }

/-- The four precompute + prewarm steps run, in source order, after a
load reporting `row_count > 0` (lines 499-503 and 526-530). -/
def runPrecomputes (index_key : String) (prec : PrecSpec) (st : SysState) : SysState :=
  prewarm_sector_caches index_key prec.prewarmOk
    (precompute_stock_returns index_key prec.returnsOk prec.returnsC
      (precompute_industry_series index_key prec.industryOk prec.industryC
        (precompute_sector_series index_key prec.sectorOk prec.sectorC st)))

/-! ### Orchestration (lines 482-531) -/

/-- The body of `_bg_load` (lines 492-503): run the loader, write the
registry transition `loaded := row_count > 0`, and, only when
`row_count > 0`, run the precomputers. -/
def bg_load (index_key : String) (st : SysState) (env : LoadEnv) (fault : LoadFault)
    (prec : PrecSpec) : SysState :=
  let r := load_index_from_bq index_key st.indexLoadStatus st.db env fault
  let st2 := { st with
    db := r.2
    indexLoadStatus := setA st.indexLoadStatus index_key ⟨decide (0 < r.1), false, r.1⟩ }
  if 0 < r.1 then runPrecomputes index_key prec st2 else st2

/-- Embeds `ensure_index_loaded(index_key)` (lines 482-508).  Returns
`(data_ready, state, load_submitted)`: loaded → `True` without side
effect; loading → `False` without side effect; otherwise mark loading
and submit a background `_bg_load` (the submission is counted in
`loaderInvocations`; the submitted `bg_load` runs later). -/
def ensure_index_loaded (index_key : String) (st : SysState) : Bool × SysState × Bool :=
  match lookupA st.indexLoadStatus index_key with
  | some s =>
    if s.loaded then (true, st, false)
    else if s.loading then (false, st, false)
    else (false,
      { st with indexLoadStatus := setA st.indexLoadStatus index_key ⟨false, true, 0⟩,
                loaderInvocations := st.loaderInvocations + 1 }, true)
  | none => (false,
      { st with indexLoadStatus := setA st.indexLoadStatus index_key ⟨false, true, 0⟩,
                loaderInvocations := st.loaderInvocations + 1 }, true)

/-- The synchronous first part of `refresh_single_index` (lines
513-520): invalidate the response cache, pop `ALL_SERIES_CACHE`, reset
the four series statuses and mark the index loading.  There is no check
of the current status. -/
def refreshReset (index_key : String) (st : SysState) : SysState :=
  { st with
    apiCache := invalidate_index_cache index_key st.apiCache
    allSeriesCache := st.allSeriesCache.filter (fun k => decide (k ≠ index_key))
    sectorStatus := setA st.sectorStatus index_key ⟨false, false⟩
    industryStatus := setA st.industryStatus index_key ⟨false, false⟩
    returnsStatus := setA st.returnsStatus index_key ⟨false, false⟩
    prewarmStatus := setA st.prewarmStatus index_key ⟨false, false⟩
    indexLoadStatus := setA st.indexLoadStatus index_key ⟨false, true, 0⟩ }

/-- Embeds `refresh_single_index(index_key)` (lines 511-531) run to
completion: reset, load (the loader invocation is counted), registry
transition, precomputes when `row_count > 0`, final cache
invalidation. -/
def refresh_single_index (index_key : String) (st : SysState) (env : LoadEnv)
    (fault : LoadFault) (prec : PrecSpec) : SysState :=
  let st1 := refreshReset index_key st
  let st1 := { st1 with loaderInvocations := st1.loaderInvocations + 1 }
  let r := load_index_from_bq index_key st1.indexLoadStatus st1.db env fault
  let st2 := { st1 with
    db := r.2
    indexLoadStatus := setA st1.indexLoadStatus index_key ⟨decide (0 < r.1), false, r.1⟩ }
  let st3 := if 0 < r.1 then runPrecomputes index_key prec st2 else st2
  { st3 with apiCache := invalidate_index_cache index_key st3.apiCache }

/-- The explicit `_rebuild_unified_view()` under the write lock at the
end of `preload_all_indices` (lines 751-752). -/
def applyRebuild (st : SysState) : SysState :=
  { st with db := rebuild_unified_view st.indexLoadStatus st.db }

/-! ### Request handlers `/summary`, `/rankings`, `/rankings/custom`
(lines 2057-2082, 2185-2227, 2230-2265)

The SQL query bodies live in external template files; each handler
takes an oracle producing the records the Analytical Store would
return, and a `queryOk` flag for the `try/except` around the query
(`False` = the query raises, the handler returns its empty response
without caching).  Each handler returns
`(response, served_from_cache, state)`. -/

/-- The recompute-and-cache tail of `get_summary` (lines 2069-2082). -/
def summaryCompute (idx : String) (oracle : String → List Nat) (queryOk : Bool) (now : Int)
    (ck : String) (st1 : SysState) : List Nat × Bool × SysState :=
  if queryOk then
    let res := oracle idx
    (res, false, { st1 with apiCache := set_cached_response st1.apiCache now ck (.records res) })
  else ([], false, st1)

/-- Embeds `get_summary(index)` (lines 2057-2082): substitute `sp500`
for unknown index keys, fail soft when not loaded, serve the cached
payload only when it is truthy (`if cached:`), else recompute and
cache.  (Only `/summary` writes `summary_*` keys, so a cached value
under this key is always a records list; the wildcard branch treats a
differently-shaped value as a miss.) -/
def get_summary (index : String) (oracle : String → List Nat) (queryOk : Bool) (now : Int)
    (st : SysState) : List Nat × Bool × SysState :=
  let idx := if MARKET_INDICES.contains index then index else "sp500"
  let e := ensure_index_loaded idx st
  let st1 := e.2.1
  if !e.1 then ([], false, st1)
  else
    let ck := "summary_" ++ idx
    match get_cached_response st1.apiCache now ck with
    | some (.records rs) =>
      if rs.isEmpty then summaryCompute idx oracle queryOk now ck st1
      else (rs, true, st1)
    | _ => summaryCompute idx oracle queryOk now ck st1

/-- Embeds `get_rankings(period, index)` (lines 2185-2227).  The cached
value is the `{"selected": ...}` dict — a non-empty Python dict, hence
always truthy, so any cache hit is served.  The oracle yields the
`(top, bottom)` record lists computed from `prices_{idx}`. -/
def get_rankings (period index : String) (oracle : String → String → List Nat × List Nat)
    (queryOk : Bool) (now : Int) (st : SysState) :
    (List Nat × List Nat) × Bool × SysState :=
  let idx := if MARKET_INDICES.contains index then index else "sp500"
  let e := ensure_index_loaded idx st
  let st1 := e.2.1
  if !e.1 then (([], []), false, st1)
  else
    let ck := "rankings_" ++ period ++ "_" ++ idx
    match get_cached_response st1.apiCache now ck with
    | some (.rankingDict t b) => ((t, b), true, st1)
    | _ =>
      if queryOk then
        let df := oracle idx period
        (df, false,
          { st1 with apiCache := set_cached_response st1.apiCache now ck (.rankingDict df.1 df.2) })
      else (([], []), false, st1)

/-- Embeds `get_custom_rankings(start, end, index)` (lines 2230-2265). -/
def get_custom_rankings (startD endD index : String)
    (oracle : String → String → String → List Nat × List Nat)
    (queryOk : Bool) (now : Int) (st : SysState) :
    (List Nat × List Nat) × Bool × SysState :=
  let idx := if MARKET_INDICES.contains index then index else "sp500"
  let e := ensure_index_loaded idx st
  let st1 := e.2.1
  if !e.1 then (([], []), false, st1)
  else
    let ck := "rankings_custom_" ++ startD ++ "_" ++ endD ++ "_" ++ idx
    match get_cached_response st1.apiCache now ck with
    | some (.rankingDict t b) => ((t, b), true, st1)
    | _ =>
      if queryOk then
        let df := oracle idx startD endD
        (df, false,
          { st1 with apiCache := set_cached_response st1.apiCache now ck (.rankingDict df.1 df.2) })
      else (([], []), false, st1)

/-! ### Deduplication of warehouse rows

The SQL template that builds `prices_{index_key}` from the fetched
dataframe (`sql/duckdb_create_index_table.sql`, referenced at
`src/backend/main.py` line 218) is not part of the source under
`src/`; only its caller is.  The definitions below are therefore
modelled from the spec. -/

/-- A Price Row (spec §3).  Prices are scaled integers (the claims only
compare volumes, never do float arithmetic); `trade_date` is a day
number. -/
structure PriceRow where
  symbol : String
  name : String
  sector : String
  industry : String
  trade_date : Nat
  openP : Int
  close : Int
  high : Int
  low : Int
  volume : Nat
deriving DecidableEq, Repr

/-- The (symbol, trade_date) key a row is deduplicated on. -/
def rowKey (r : PriceRow) : String × Nat := (r.symbol, r.trade_date)

/-- Modelled from the spec: the missing dedup SQL keeps, per
`(symbol, trade_date)` key, "the row with the highest volume —
deterministic, order-independent tie-break".  `pickHigher` keeps the
strictly-higher-volume row (on a volume tie the first argument wins;
the claims only concern keys whose duplicate rows have distinct
volumes). -/
def pickHigher (a b : PriceRow) : PriceRow := if a.volume < b.volume then b else a

/-- Modelled from the spec: the highest-volume row of a row list. -/
def maxVolRow : List PriceRow → Option PriceRow
  | [] => none
  | r :: rs =>
    match maxVolRow rs with
    | none => some r
    | some b => some (pickHigher r b)

/-- Modelled from the spec: the loaded table keeps, for each distinct
`(symbol, trade_date)` key of the input, the highest-volume input row
with that key. -/
def dedupRows (rows : List PriceRow) : List PriceRow :=
  ((rows.map rowKey).dedup).filterMap
    (fun k => maxVolRow (rows.filter (fun r => decide (rowKey r = k))))

/-! ### Startup preload schedule (`preload_all_indices`, lines 715-754)

Phase 1 awaits `asyncio.gather` over `refresh_single_index` for the
two priority indices; phase 2 then gathers the remaining four indices
together with `_load_index_prices_from_bq` — concurrently, with no
ordering among the phase-2 tasks.  A `Schedule` assigns each task a
start and finish instant; `AdmissibleSchedule` captures exactly what
the `await` structure of the source guarantees. -/

def phase1Keys : List String := ["stoxx50", "sp500"]

/-- `remaining = [k for k in MARKET_INDICES if k not in ("stoxx50", "sp500")]`
(line 732) followed by the `_load_index_prices()` task appended to the
phase-2 gather (line 748); `"index_prices"` names that task. -/
def phase2Keys : List String :=
  (MARKET_INDICES.filter (fun k => decide (k ≠ "stoxx50") && decide (k ≠ "sp500")))
    ++ ["index_prices"]

structure Schedule where
  startT : String → Int
  finishT : String → Int

/-- What `preload_all_indices` guarantees about timing: every task
finishes after it starts, and every phase-2 task starts only after all
phase-1 tasks have finished (the `await asyncio.gather(*phase1_tasks)`
at line 722 precedes the creation of the phase-2 tasks at line 748).
`asyncio.gather` imposes no order among the tasks of one phase. -/
def AdmissibleSchedule (s : Schedule) : Prop :=
  (∀ k ∈ phase1Keys ++ phase2Keys, s.startT k ≤ s.finishT k) ∧
  (∀ k1 ∈ phase1Keys, ∀ k2 ∈ phase2Keys, s.finishT k1 ≤ s.startT k2)

/-! ### Interleaved refreshes (for the sequencing invariant)

`refresh_single_index` is an async task whose shared-state mutations
happen either on the event loop between `await`s or inside executor
threads; two such tasks for the same dataset may interleave at those
boundaries (nothing in the source prevents scheduling a second refresh
for a dataset that is still `Loading` — see `webhook_refresh_index`,
lines 927-937).  `RAct` lists the atomic shared-state mutations of one
`refresh_single_index` run for one fixed dataset, in source order. -/

structure CState where
  loaded : Bool
  loading : Bool
  rowCount : Nat
  sectorReady : Bool
  sectorComputing : Bool
  industryReady : Bool
  industryComputing : Bool
  returnsReady : Bool
  returnsComputing : Bool
  prewarmReady : Bool
  prewarmComputing : Bool
deriving DecidableEq, Repr

inductive RAct where
  | resetSeries           -- lines 514-519: series statuses := not ready, not computing
  | setLoading            -- line 520: {"loaded": False, "loading": True, "row_count": 0}
  | finishLoad (rc : Nat) -- lines 522-525: loader returns rc; status := loaded iff rc > 0
  | sectorBegin           -- line 268 (in the executor thread)
  | sectorEnd (ok : Bool) -- line 298 on success / line 303 on failure
  | industryBegin
  | industryEnd (ok : Bool)
  | returnsBegin
  | returnsEnd (ok : Bool)
  | prewarmBegin
  | prewarmEnd (ok : Bool)
deriving DecidableEq, Repr

def rstep (s : CState) : RAct → CState
  | .resetSeries =>
    { s with sectorReady := false, sectorComputing := false,
             industryReady := false, industryComputing := false,
             returnsReady := false, returnsComputing := false,
             prewarmReady := false, prewarmComputing := false }
  | .setLoading => { s with loaded := false, loading := true, rowCount := 0 }
  | .finishLoad rc => { s with loaded := decide (0 < rc), loading := false, rowCount := rc }
  | .sectorBegin => { s with sectorReady := false, sectorComputing := true }
  | .sectorEnd ok => { s with sectorReady := ok, sectorComputing := false }
  | .industryBegin => { s with industryReady := false, industryComputing := true }
  | .industryEnd ok => { s with industryReady := ok, industryComputing := false }
  | .returnsBegin => { s with returnsReady := false, returnsComputing := true }
  | .returnsEnd ok => { s with returnsReady := ok, returnsComputing := false }
  | .prewarmBegin => { s with prewarmReady := false, prewarmComputing := true }
  | .prewarmEnd ok => { s with prewarmReady := ok, prewarmComputing := false }

/-- The mutation sequence of one `refresh_single_index` run whose load
returns `rc` rows and whose precomputes succeed. -/
def refreshTask (rc : Nat) : List RAct :=
  [.resetSeries, .setLoading, .finishLoad rc] ++
    (if 0 < rc then
      [.sectorBegin, .sectorEnd true, .industryBegin, .industryEnd true,
       .returnsBegin, .returnsEnd true, .prewarmBegin, .prewarmEnd true]
     else [])

def execActs (s : CState) (l : List RAct) : CState := l.foldl rstep s

def cInit : CState :=
  { loaded := false, loading := false, rowCount := 0,
    sectorReady := false, sectorComputing := false,
    industryReady := false, industryComputing := false,
    returnsReady := false, returnsComputing := false,
    prewarmReady := false, prewarmComputing := false }

/-- `Interleaving xs ys zs`: `zs` is an order-preserving merge of the
two action sequences `xs` and `ys`. -/
inductive Interleaving : List RAct → List RAct → List RAct → Prop where
  | nil : Interleaving [] [] []
  | left {x : RAct} {xs ys zs : List RAct} :
      Interleaving xs ys zs → Interleaving (x :: xs) ys (x :: zs)
  | right {y : RAct} {xs ys zs : List RAct} :
      Interleaving xs ys zs → Interleaving xs (y :: ys) (y :: zs)

/-- The set-of-loaded-datasets/unified-view invariant the spec asserts:
the views union exactly the tables of the datasets marked loaded. -/
def viewMatchesLoaded (st : SysState) : Prop :=
  st.db.pricesView = loadedKeysOf st.indexLoadStatus ∧
  st.db.latestView = loadedKeysOf st.indexLoadStatus

/-! ### Projection facts about the precomputers -/

theorem runPrecomputes_indexLoadStatus (k : String) (prec : PrecSpec) (st : SysState) :
    (runPrecomputes k prec st).indexLoadStatus = st.indexLoadStatus := by
  unfold runPrecomputes prewarm_sector_caches precompute_stock_returns
    precompute_industry_series precompute_sector_series
  split_ifs <;> rfl

theorem runPrecomputes_pricesView (k : String) (prec : PrecSpec) (st : SysState) :
    (runPrecomputes k prec st).db.pricesView = st.db.pricesView := by
  unfold runPrecomputes prewarm_sector_caches precompute_stock_returns
    precompute_industry_series precompute_sector_series createTable dropTable
  split_ifs <;> rfl

theorem runPrecomputes_latestView (k : String) (prec : PrecSpec) (st : SysState) :
    (runPrecomputes k prec st).db.latestView = st.db.latestView := by
  unfold runPrecomputes prewarm_sector_caches precompute_stock_returns
    precompute_industry_series precompute_sector_series createTable dropTable
  split_ifs <;> rfl

theorem runPrecomputes_loaderInvocations (k : String) (prec : PrecSpec) (st : SysState) :
    (runPrecomputes k prec st).loaderInvocations = st.loaderInvocations := by
  unfold runPrecomputes prewarm_sector_caches precompute_stock_returns
    precompute_industry_series precompute_sector_series
  split_ifs <;> rfl

theorem runPrecomputes_sectorStatus (k : String) (prec : PrecSpec) (st : SysState) :
    lookupA (runPrecomputes k prec st).sectorStatus k = some ⟨prec.sectorOk, false⟩ := by
  unfold runPrecomputes prewarm_sector_caches precompute_stock_returns
    precompute_industry_series precompute_sector_series
  split_ifs <;> simp_all [lookupA_setA_self]

theorem rebuild_unified_view_tables (sts : List (String × IndexStatus)) (db : DB) :
    (rebuild_unified_view sts db).tables = db.tables := by
  unfold rebuild_unified_view
  by_cases h : (loadedKeysOf sts).isEmpty <;> simp [h]

/-! ## The claims -/

/-- C7: an entry inserted into the response cache at time `T` is
returned verbatim by a lookup at any time strictly before `T + TTL`,
and is treated as absent by a lookup at or after `T + TTL`; expiry is
checked lazily at read time by `get_cached_response`. -/
theorem C7_cache_ttl (cache : ApiCache) (key : String) (data : CacheVal) (T t : Int) :
    (t < T + CACHE_TTL →
      get_cached_response (set_cached_response cache T key data) t key = some data) ∧
    (T + CACHE_TTL ≤ t →
      get_cached_response (set_cached_response cache T key data) t key = none) := by
  unfold get_cached_response set_cached_response
  rw [lookupA_setA_self]
  constructor
  · intro h
    have hlt : t - T < CACHE_TTL := by omega
    simp [hlt]
  · intro h
    have hge : ¬ (t - T < CACHE_TTL) := by omega
    simp [hge]

/-- Witness for C7 at a concrete entry: a read 100s after insertion is
a verbatim hit, a read exactly at the TTL boundary is a miss. -/
theorem C7_cache_ttl_witness :
    ((100 : Int) < 0 + CACHE_TTL ∧
      get_cached_response (set_cached_response [] 0 "summary_sp500" (.records [1, 2])) 100
        "summary_sp500" = some (.records [1, 2])) ∧
    ((0 : Int) + CACHE_TTL ≤ 1800 ∧
      get_cached_response (set_cached_response [] 0 "summary_sp500" (.records [1, 2])) 1800
        "summary_sp500" = none) :=
  ⟨⟨by decide, (C7_cache_ttl [] "summary_sp500" (.records [1, 2]) 0 100).1 (by decide)⟩,
   ⟨by decide, (C7_cache_ttl [] "summary_sp500" (.records [1, 2]) 0 1800).2 (by decide)⟩⟩

/-- C10: for any index query value that is not one of the six
configured market indices, `/summary`, `/rankings` and
`/rankings/custom` silently substitute `sp500` and behave exactly as a
request for `sp500` — no error, no empty-result special case. -/
theorem C10_unknown_index_defaults_to_sp500 (index : String)
    (h : MARKET_INDICES.contains index = false)
    (oS : String → List Nat) (oR : String → String → List Nat × List Nat)
    (oC : String → String → String → List Nat × List Nat)
    (period startD endD : String) (queryOk : Bool) (now : Int) (st : SysState) :
    get_summary index oS queryOk now st = get_summary "sp500" oS queryOk now st ∧
    get_rankings period index oR queryOk now st
      = get_rankings period "sp500" oR queryOk now st ∧
    get_custom_rankings startD endD index oC queryOk now st
      = get_custom_rankings startD endD "sp500" oC queryOk now st := by
  have h2 : MARKET_INDICES.contains "sp500" = true := by decide
  refine ⟨?_, ?_, ?_⟩ <;>
    simp only [get_summary, get_rankings, get_custom_rankings, h, h2, Bool.false_eq_true,
      if_false, if_true]

/-- Witness for C10: the unknown key `"dax"` is answered as `sp500`. -/
theorem C10_witness :
    MARKET_INDICES.contains "dax" = false ∧
    get_summary "dax" (fun _ => [42]) true 0 initState
      = get_summary "sp500" (fun _ => [42]) true 0 initState :=
  ⟨by decide,
    (C10_unknown_index_defaults_to_sp500 "dax" (by decide) (fun _ => [42])
      (fun _ _ => ([], [])) (fun _ _ _ => ([], [])) "1y" "2024-01-01" "2024-02-01" true 0
      initState).1⟩

/-- A concrete state for the C9 witness: `sp500` loaded, an empty
summary payload cached at time 100. -/
def stC9w : SysState :=
  { initState with
    indexLoadStatus := [("sp500", ⟨true, false, 5⟩)]
    apiCache := [("summary_sp500", (.records [], 100))] }

/-- C9: a stored empty payload is never served from the cache: with an
empty record list cached under `summary_sp500` and still within its
TTL, the entry is present (`get_cached_response` returns it) but
`get_summary`, which tests the cached value by Python truthiness
(`if cached:`), recomputes from the Analytical Store instead of
serving it. -/
theorem C9_empty_cached_payload_recomputed (st : SysState) (now T : Int) (rc : Nat)
    (oracle : String → List Nat)
    (hload : lookupA st.indexLoadStatus "sp500" = some ⟨true, false, rc⟩)
    (hcache : lookupA st.apiCache "summary_sp500" = some (.records [], T))
    (hfresh : now - T < CACHE_TTL) :
    get_cached_response st.apiCache now "summary_sp500" = some (.records []) ∧
    (get_summary "sp500" oracle true now st).1 = oracle "sp500" ∧
    (get_summary "sp500" oracle true now st).2.1 = false := by
  have hget : get_cached_response st.apiCache now "summary_sp500" = some (.records []) := by
    unfold get_cached_response
    rw [hcache]
    simp [hfresh]
  have hkey : ("summary_" ++ "sp500" : String) = "summary_sp500" := rfl
  have hens : ensure_index_loaded "sp500" st = (true, st, false) := by
    unfold ensure_index_loaded
    rw [hload]
    simp
  refine ⟨hget, ?_, ?_⟩ <;>
    simp [get_summary, hens, hkey, hget, summaryCompute]

/-- Witness for C9 at a concrete state: the cached empty summary is
present but the second request recomputes. -/
theorem C9_witness :
    lookupA stC9w.indexLoadStatus "sp500" = some ⟨true, false, 5⟩ ∧
    lookupA stC9w.apiCache "summary_sp500" = some (.records [], 100) ∧
    (200 : Int) - 100 < CACHE_TTL ∧
    (get_cached_response stC9w.apiCache 200 "summary_sp500" = some (.records []) ∧
      (get_summary "sp500" (fun _ => [42]) true 200 stC9w).1 = (fun _ => [42]) "sp500" ∧
      (get_summary "sp500" (fun _ => [42]) true 200 stC9w).2.1 = false) :=
  ⟨by decide, by decide, by decide,
    C9_empty_cached_payload_recomputed stC9w 200 100 5 (fun _ => [42]) (by decide) (by decide)
      (by decide)⟩


/-- A concrete precompute outcome shared by several concrete traces:
all four derivations succeed. -/
def precAllOk : PrecSpec := ⟨true, 7, true, 8, true, 9, true⟩

/-- C5: no exception during fetch or load ever escapes
`_load_index_from_bq`: whatever operation raises, the call returns
normally with `row_count = 0`, and the caller (`_bg_load`) performs the
registry transition, which for a failed load marks the dataset
not loaded (`loaded = row_count > 0 = False`). -/
theorem C5_loader_never_raises (index_key : String) (st : SysState) (env : LoadEnv)
    (fault : LoadFault) (prec : PrecSpec) (h : fault ≠ .ok) :
    (load_index_from_bq index_key st.indexLoadStatus st.db env fault).1 = 0 ∧
    lookupA (bg_load index_key st env fault prec).indexLoadStatus index_key
      = some ⟨false, false, 0⟩ := by
  have h0 : (load_index_from_bq index_key st.indexLoadStatus st.db env fault).1 = 0 := by
    cases fault with
    | ok => exact absurd rfl h
    | _ =>
      unfold load_index_from_bq
      split_ifs <;> simp_all
  refine ⟨h0, ?_⟩
  simp only [bg_load, h0]
  simp [lookupA_setA_self]

/-- Witness for C5: a BigQuery fetch failure on a fresh state. -/
theorem C5_witness :
    LoadFault.fetch ≠ LoadFault.ok ∧
    ((load_index_from_bq "sp500" initState.indexLoadStatus initState.db ⟨5, 1, 2, 5⟩
        LoadFault.fetch).1 = 0 ∧
      lookupA (bg_load "sp500" initState ⟨5, 1, 2, 5⟩ LoadFault.fetch
        precAllOk).indexLoadStatus "sp500" = some ⟨false, false, 0⟩) :=
  ⟨by decide, C5_loader_never_raises "sp500" initState ⟨5, 1, 2, 5⟩ LoadFault.fetch precAllOk
    (by decide)⟩

/-- A prior DuckDB state for the C3 counterexample: `sp500` has an old
raw table (content 1) and an old latest-snapshot table (content 2). -/
def dbC3 : DB := ⟨[(.prices "sp500", 1), (.latest "sp500", 2)], [], []⟩

def stsC3 : List (String × IndexStatus) := [("sp500", ⟨false, true, 0⟩)]

def envC3 : LoadEnv := ⟨500, 10, 11, 480⟩

def c3FailResult : Nat × DB := load_index_from_bq "sp500" stsC3 dbC3 envC3 .createLatest

/-- C3 counterexample: the replacement is not failure-atomic.  When the
`CREATE TABLE latest_sp500 ...` statement raises, the raw table has
already been replaced with the new data and the old latest table has
already been dropped: afterwards neither "both tables replaced" nor
"prior tables intact" holds (DuckDB autocommits each statement; the
source wraps nothing in a transaction and performs no rollback). -/
theorem C3_counterexample :
    ¬ ((lookupA c3FailResult.2.tables (.prices "sp500") = some envC3.newRaw ∧
        lookupA c3FailResult.2.tables (.latest "sp500") = some envC3.newLatest) ∨
       c3FailResult.2.tables = dbC3.tables) := by decide

/-- C3 (amended): if the warehouse fetch yields zero rows the loader
returns 0 and leaves the Analytical Store exactly as it was; on a
fault-free run both the raw table and the latest-snapshot table are
replaced with the new data (under the write lock, so no concurrent
reader observes an intermediate state) and the fresh count is returned;
on any failure the loader returns 0 but operations already executed are
NOT rolled back — the prior tables are not guaranteed intact (the
caller instead marks the dataset not loaded). -/
theorem C3_amended (index_key : String) (sts : List (String × IndexStatus)) (db : DB)
    (env : LoadEnv) (fault : LoadFault) :
    (env.dfRows = 0 → load_index_from_bq index_key sts db env fault = (0, db)) ∧
    (fault = .ok → env.dfRows ≠ 0 →
      (load_index_from_bq index_key sts db env fault).1 = env.tableCount ∧
      lookupA (load_index_from_bq index_key sts db env fault).2.tables (.prices index_key)
        = some env.newRaw ∧
      lookupA (load_index_from_bq index_key sts db env fault).2.tables (.latest index_key)
        = some env.newLatest) ∧
    (fault ≠ .ok → (load_index_from_bq index_key sts db env fault).1 = 0) := by
  refine ⟨?_, ?_, ?_⟩
  · intro hz
    unfold load_index_from_bq
    by_cases hf : fault = .fetch <;> simp [hf, hz]
  · intro hok hnz
    subst hok
    unfold load_index_from_bq
    simp only [reduceCtorEq, if_false, hnz, if_neg hnz]
    refine ⟨trivial, ?_, ?_⟩
    · rw [rebuild_unified_view_tables]
      unfold createTable dropTable
      simp only
      rw [lookupA_setA_ne _ _ _ _ (by simp)]
      rw [lookupA_filter_ne _ _ _ (by simp)]
      exact lookupA_setA_self _ _ _
    · rw [rebuild_unified_view_tables]
      unfold createTable dropTable
      simp only
      exact lookupA_setA_self _ _ _
  · intro hne
    cases fault with
    | ok => exact absurd rfl hne
    | _ =>
      unfold load_index_from_bq
      split_ifs <;> simp_all

/-- Witness for C3 (amended), at a concrete prior state: the zero-row
case leaves the store untouched, the fault-free case replaces both
tables and returns the fresh count. -/
theorem C3_amended_witness :
    ((⟨0, 10, 11, 0⟩ : LoadEnv).dfRows = 0 ∧
      load_index_from_bq "sp500" stsC3 dbC3 ⟨0, 10, 11, 0⟩ .ok = (0, dbC3)) ∧
    (envC3.dfRows ≠ 0 ∧
      (load_index_from_bq "sp500" stsC3 dbC3 envC3 .ok).1 = envC3.tableCount ∧
      lookupA (load_index_from_bq "sp500" stsC3 dbC3 envC3 .ok).2.tables (.prices "sp500")
        = some envC3.newRaw ∧
      lookupA (load_index_from_bq "sp500" stsC3 dbC3 envC3 .ok).2.tables (.latest "sp500")
        = some envC3.newLatest) :=
  ⟨⟨rfl, (C3_amended "sp500" stsC3 dbC3 ⟨0, 10, 11, 0⟩ .ok).1 rfl⟩,
   ⟨by decide, (C3_amended "sp500" stsC3 dbC3 envC3 .ok).2.1 rfl (by decide)⟩⟩


/-- The C1 trace: from a fresh process, a request triggers the first
lazy load of `sp500` (`ensure_index_loaded`, marking it Loading)... -/
def stC1Loading : SysState := (ensure_index_loaded "sp500" initState).2.1

def envC1 : LoadEnv := ⟨500, 1, 2, 500⟩

/-- ... and the submitted `_bg_load` then runs to completion with 500
rows and all precomputes succeeding. -/
def stC1Done : SysState := bg_load "sp500" stC1Loading envC1 .ok precAllOk

/-- C1 counterexample: immediately after the first successful load of
`sp500` completes, the dataset is marked Loaded with 500 rows, yet the
unified `prices` view unions nothing — `_rebuild_unified_view` ran
inside `_load_index_from_bq`, before the caller flipped the status to
loaded, so it saw no loaded dataset and left the views untouched.  The
views are not the union of exactly the Loaded datasets, and the
freshly loaded dataset's rows are not visible through them. -/
theorem C1_counterexample :
    lookupA stC1Done.indexLoadStatus "sp500" = some ⟨true, false, 500⟩ ∧
    loadedKeysOf stC1Done.indexLoadStatus = ["sp500"] ∧
    stC1Done.db.pricesView = [] ∧
    ¬ viewMatchesLoaded stC1Done := by
  refine ⟨by decide, by decide, by decide, ?_⟩
  show ¬ (stC1Done.db.pricesView = loadedKeysOf stC1Done.indexLoadStatus ∧
    stC1Done.db.latestView = loadedKeysOf stC1Done.indexLoadStatus)
  decide

/-- C1 (amended): the unified views are rebuilt during each successful
load, but from the registry as it stands before the dataset's status
flips to Loaded: the rebuilt views union exactly the datasets marked
Loaded at that moment (or are left untouched when none is), which
never includes the dataset whose load just completed; its rows become
visible only at the next rebuild — e.g. the explicit
`_rebuild_unified_view()` at the end of `preload_all_indices`, after
which the views again union exactly the Loaded datasets. -/
theorem C1_amended (index_key : String) (st : SysState) (env : LoadEnv) (prec : PrecSpec)
    (hnl : ∀ p ∈ st.indexLoadStatus, p.1 = index_key → p.2.loaded = false)
    (hrows : env.dfRows ≠ 0) :
    ((bg_load index_key st env .ok prec).db.pricesView =
        if (loadedKeysOf st.indexLoadStatus).isEmpty then st.db.pricesView
        else loadedKeysOf st.indexLoadStatus) ∧
    ((bg_load index_key st env .ok prec).db.latestView =
        if (loadedKeysOf st.indexLoadStatus).isEmpty then st.db.latestView
        else loadedKeysOf st.indexLoadStatus) ∧
    index_key ∉ loadedKeysOf st.indexLoadStatus ∧
    (loadedKeysOf (bg_load index_key st env .ok prec).indexLoadStatus ≠ [] →
      viewMatchesLoaded (applyRebuild (bg_load index_key st env .ok prec))) := by
  have hload : load_index_from_bq index_key st.indexLoadStatus st.db env .ok =
      (env.tableCount,
        rebuild_unified_view st.indexLoadStatus
          (createTable
            (dropTable (createTable (dropTable st.db (.prices index_key)) (.prices index_key)
              env.newRaw) (.latest index_key)) (.latest index_key) env.newLatest)) := by
    unfold load_index_from_bq
    simp [hrows]
  have hviews : ∀ db2 : DB,
      (rebuild_unified_view st.indexLoadStatus db2).pricesView =
        (if (loadedKeysOf st.indexLoadStatus).isEmpty then db2.pricesView
         else loadedKeysOf st.indexLoadStatus) ∧
      (rebuild_unified_view st.indexLoadStatus db2).latestView =
        (if (loadedKeysOf st.indexLoadStatus).isEmpty then db2.latestView
         else loadedKeysOf st.indexLoadStatus) := by
    intro db2
    unfold rebuild_unified_view
    by_cases h : (loadedKeysOf st.indexLoadStatus).isEmpty <;> simp [h]
  refine ⟨?_, ?_, ?_, ?_⟩
  · simp only [bg_load, hload]
    split
    · rw [runPrecomputes_pricesView]
      exact (hviews _).1
    · exact (hviews _).1
  · simp only [bg_load, hload]
    split
    · rw [runPrecomputes_latestView]
      exact (hviews _).2
    · exact (hviews _).2
  · intro hmem
    simp only [loadedKeysOf, List.mem_map, List.mem_filter] at hmem
    obtain ⟨p, ⟨hp, hpl⟩, hpk⟩ := hmem
    have := hnl p hp hpk
    rw [this] at hpl
    exact absurd hpl (by simp)
  · intro hne
    simp only [applyRebuild, viewMatchesLoaded]
    unfold rebuild_unified_view
    have : (loadedKeysOf (bg_load index_key st env .ok prec).indexLoadStatus).isEmpty = false := by
      cases hk : loadedKeysOf (bg_load index_key st env .ok prec).indexLoadStatus with
      | nil => exact absurd hk hne
      | cons a as => rfl
    simp [this]

/-- Witness for C1 (amended), on the concrete first-lazy-load trace. -/
theorem C1_amended_witness :
    (∀ p ∈ stC1Loading.indexLoadStatus, p.1 = "sp500" → p.2.loaded = false) ∧
    envC1.dfRows ≠ 0 ∧
    ((bg_load "sp500" stC1Loading envC1 .ok precAllOk).db.pricesView =
        if (loadedKeysOf stC1Loading.indexLoadStatus).isEmpty then stC1Loading.db.pricesView
        else loadedKeysOf stC1Loading.indexLoadStatus) ∧
    "sp500" ∉ loadedKeysOf stC1Loading.indexLoadStatus ∧
    (loadedKeysOf (bg_load "sp500" stC1Loading envC1 .ok precAllOk).indexLoadStatus ≠ [] →
      viewMatchesLoaded (applyRebuild (bg_load "sp500" stC1Loading envC1 .ok precAllOk))) := by
  have h := C1_amended "sp500" stC1Loading envC1 precAllOk (by decide) (by decide)
  exact ⟨by decide, by decide, h.1, h.2.2.1, h.2.2.2⟩

/-- The C2 trace: the first lazy-load trigger for `sp500` has marked it
Loading and submitted one loader run, which is still in flight. -/
def stC2Loading : SysState := (ensure_index_loaded "sp500" initState).2.1

def envC2 : LoadEnv := ⟨600, 3, 4, 600⟩

/-- C2 counterexample: with `sp500` still Loading (one loader run
already started), an explicit refresh trigger is not a no-op: -
`refresh_single_index` performs no status check and invokes the loader
again, so a second load of the same dataset is started while the first
is in flight. -/
theorem C2_counterexample :
    lookupA stC2Loading.indexLoadStatus "sp500" = some ⟨false, true, 0⟩ ∧
    stC2Loading.loaderInvocations = 1 ∧
    (refresh_single_index "sp500" stC2Loading envC2 .ok precAllOk).loaderInvocations = 2 := by
  refine ⟨by decide, by decide, by decide⟩

/-- C2 (amended): a lazy-load trigger (`ensure_index_loaded`) for a
dataset already Loading is a genuine no-op — it returns False, changes
nothing and starts no load; but an explicit refresh trigger
(`refresh_single_index`) performs no such check and always starts a
new loader run, regardless of the Loading state. -/
theorem C2_amended (index_key : String) (st : SysState) (s : IndexStatus)
    (h : lookupA st.indexLoadStatus index_key = some s) (hld : s.loaded = false)
    (hlg : s.loading = true) :
    ensure_index_loaded index_key st = (false, st, false) ∧
    ∀ (env : LoadEnv) (fault : LoadFault) (prec : PrecSpec),
      (refresh_single_index index_key st env fault prec).loaderInvocations
        = st.loaderInvocations + 1 := by
  constructor
  · unfold ensure_index_loaded
    rw [h]
    simp [hld, hlg]
  · intro env fault prec
    simp only [refresh_single_index]
    split
    · rw [runPrecomputes_loaderInvocations]
      rfl
    · rfl

/-- Witness for C2 (amended), on the concrete Loading state. -/
theorem C2_amended_witness :
    lookupA stC2Loading.indexLoadStatus "sp500" = some ⟨false, true, 0⟩ ∧
    (ensure_index_loaded "sp500" stC2Loading = (false, stC2Loading, false) ∧
      (refresh_single_index "sp500" stC2Loading envC2 .ok precAllOk).loaderInvocations
        = stC2Loading.loaderInvocations + 1) := by
  have h := C2_amended "sp500" stC2Loading ⟨false, true, 0⟩ (by decide) rfl rfl
  exact ⟨by decide, h.1, h.2 envC2 .ok precAllOk⟩


/-! ### Facts about the modelled deduplication -/

theorem maxVolRow_eq_none_iff (l : List PriceRow) : maxVolRow l = none ↔ l = [] := by
  cases l with
  | nil => simp [maxVolRow]
  | cons r rs =>
    simp only [maxVolRow]
    cases maxVolRow rs <;> simp

theorem maxVolRow_mem {l : List PriceRow} {m : PriceRow} (h : maxVolRow l = some m) :
    m ∈ l := by
  induction l generalizing m with
  | nil => simp [maxVolRow] at h
  | cons r rs ih =>
    simp only [maxVolRow] at h
    cases hm : maxVolRow rs with
    | none =>
      rw [hm] at h
      simp only [Option.some_inj] at h
      exact h ▸ List.mem_cons_self r rs
    | some b =>
      rw [hm] at h
      simp only [Option.some_inj] at h
      unfold pickHigher at h
      split at h
      · exact h ▸ List.mem_cons_of_mem _ (ih hm)
      · exact h ▸ List.mem_cons_self r rs

theorem maxVolRow_le {l : List PriceRow} {m : PriceRow} (h : maxVolRow l = some m) :
    ∀ x ∈ l, x.volume ≤ m.volume := by
  induction l generalizing m with
  | nil => simp [maxVolRow] at h
  | cons r rs ih =>
    simp only [maxVolRow] at h
    cases hm : maxVolRow rs with
    | none =>
      rw [hm] at h
      simp only [Option.some_inj] at h
      have hrs : rs = [] := (maxVolRow_eq_none_iff rs).mp hm
      subst hrs
      intro x hx
      simp only [List.mem_singleton] at hx
      subst hx
      exact h ▸ le_refl _
    | some b =>
      rw [hm] at h
      simp only [Option.some_inj] at h
      intro x hx
      rcases List.mem_cons.mp hx with hxr | hxs
      · subst hxr
        rw [← h]
        unfold pickHigher
        split
        · rename_i hlt
          exact le_of_lt hlt
        · exact le_refl _
      · have hxb := ih hm x hxs
        rw [← h]
        unfold pickHigher
        split
        · exact hxb
        · rename_i hnlt
          exact hxb.trans (Nat.le_of_not_lt hnlt)

theorem mem_of_maxVolRow_filter {rows : List PriceRow} {k : String × Nat} {x : PriceRow}
    (h : maxVolRow (rows.filter (fun r => decide (rowKey r = k))) = some x) :
    x ∈ rows ∧ rowKey x = k := by
  have hx := maxVolRow_mem h
  rw [List.mem_filter] at hx
  exact ⟨hx.1, by simpa using hx.2⟩

theorem filterMap_filter_nil (f : String × Nat → Option PriceRow)
    (hf : ∀ k' x, f k' = some x → rowKey x = k') (keys : List (String × Nat))
    (k : String × Nat) (hk : k ∉ keys) :
    (keys.filterMap f).filter (fun x => decide (rowKey x = k)) = [] := by
  induction keys with
  | nil => rfl
  | cons a as ih =>
    have hka : ¬ k = a ∧ k ∉ as := by
      constructor
      · intro he
        exact hk (he ▸ List.mem_cons_self a as)
      · intro hm
        exact hk (List.mem_cons_of_mem a hm)
    rw [List.filterMap_cons]
    cases hfa : f a with
    | none => exact ih hka.2
    | some x =>
      rw [List.filter_cons]
      have hxa : rowKey x = a := hf a x hfa
      have hd : decide (rowKey x = k) = false := by
        rw [hxa]
        simp only [decide_eq_false_iff_not]
        exact fun hh => hka.1 hh.symm
      rw [hd]
      simp only [Bool.false_eq_true, if_false]
      exact ih hka.2

theorem filterMap_filter_key (f : String × Nat → Option PriceRow)
    (hf : ∀ k' x, f k' = some x → rowKey x = k') (keys : List (String × Nat))
    (hnd : keys.Nodup) (k : String × Nat) (hk : k ∈ keys) (r : PriceRow)
    (hfk : f k = some r) :
    (keys.filterMap f).filter (fun x => decide (rowKey x = k)) = [r] := by
  induction keys with
  | nil => simp at hk
  | cons a as ih =>
    rw [List.nodup_cons] at hnd
    rw [List.filterMap_cons]
    rcases List.mem_cons.mp hk with hka | hkas
    · subst hka
      rw [hfk, List.filter_cons]
      have hrk : rowKey r = k := hf k r hfk
      have hd : decide (rowKey r = k) = true := by simp [hrk]
      rw [hd]
      simp only [if_true]
      rw [filterMap_filter_nil f hf as k hnd.1]
    · have hak : a ≠ k := fun he => hnd.1 (he ▸ hkas)
      cases hfa : f a with
      | none => exact ih hnd.2 hkas
      | some x =>
        rw [List.filter_cons]
        have hxa : rowKey x = a := hf a x hfa
        have hd : decide (rowKey x = k) = false := by
          rw [hxa]
          simp only [decide_eq_false_iff_not]
          exact hak
        rw [hd]
        simp only [Bool.false_eq_true, if_false]
        exact ih hnd.2 hkas

theorem dedupRows_filter_key (rows : List PriceRow) (r : PriceRow) (k : String × Nat)
    (hk : rowKey r = k) (hr : r ∈ rows)
    (hmax : ∀ s ∈ rows, rowKey s = k → s ≠ r → s.volume < r.volume) :
    (dedupRows rows).filter (fun x => decide (rowKey x = k)) = [r] := by
  unfold dedupRows
  apply filterMap_filter_key
  · intro k' x hx
    exact (mem_of_maxVolRow_filter hx).2
  · exact List.nodup_dedup _
  · rw [List.mem_dedup, List.mem_map]
    exact ⟨r, hr, hk⟩
  · have hrf : r ∈ rows.filter (fun s => decide (rowKey s = k)) := by
      rw [List.mem_filter]
      exact ⟨hr, by simp [hk]⟩
    cases hmv : maxVolRow (rows.filter (fun s => decide (rowKey s = k))) with
    | none =>
      rw [maxVolRow_eq_none_iff] at hmv
      rw [hmv] at hrf
      simp at hrf
    | some m =>
      congr 1
      by_contra hne
      have hm := maxVolRow_mem hmv
      rw [List.mem_filter] at hm
      have hmk : rowKey m = k := by simpa using hm.2
      have h1 : m.volume < r.volume := hmax m hm.1 hmk hne
      have h2 : r.volume ≤ m.volume := maxVolRow_le hmv r hrf
      omega

/-- C4: whenever duplicate input rows share a (symbol, trade_date) key
but carry different volumes (here: one row `r` is the strict
volume-maximum among the rows with its key), the loaded table contains
exactly one row for that key, and it is the highest-volume input row;
the selection is deterministic and independent of the input row order
(the same single row results from every permutation of the input). -/
theorem C4_dedup_keeps_highest_volume (rows : List PriceRow) (r : PriceRow) (k : String × Nat)
    (hk : rowKey r = k) (hr : r ∈ rows)
    (hmax : ∀ s ∈ rows, rowKey s = k → s ≠ r → s.volume < r.volume) :
    ∀ rows2 : List PriceRow, rows2.Perm rows →
      (dedupRows rows2).filter (fun x => decide (rowKey x = k)) = [r] := by
  intro rows2 hperm
  apply dedupRows_filter_key rows2 r k hk (hperm.mem_iff.mpr hr)
  intro s hs hks hsr
  exact hmax s (hperm.subset hs) hks hsr

def rowA : PriceRow := ⟨"AAPL", "Apple", "Tech", "CE", 10, 1, 2, 3, 1, 100⟩

def rowB : PriceRow := ⟨"AAPL", "Apple", "Tech", "CE", 10, 5, 6, 7, 5, 300⟩

def rowC : PriceRow := ⟨"MSFT", "Microsoft", "Tech", "SW", 10, 1, 2, 3, 1, 50⟩

/-- Witness for C4: two duplicate AAPL rows with volumes 100 and 300;
the deduplicated table keeps exactly the volume-300 row, under both
input orders. -/
theorem C4_witness :
    rowKey rowB = ("AAPL", 10) ∧ rowB ∈ [rowA, rowB, rowC] ∧
    (∀ s ∈ [rowA, rowB, rowC], rowKey s = ("AAPL", 10) → s ≠ rowB →
      s.volume < rowB.volume) ∧
    (dedupRows [rowA, rowB, rowC]).filter (fun x => decide (rowKey x = ("AAPL", 10)))
      = [rowB] ∧
    (dedupRows [rowC, rowB, rowA]).filter (fun x => decide (rowKey x = ("AAPL", 10)))
      = [rowB] :=
  ⟨by decide, by decide, by decide,
    C4_dedup_keeps_highest_volume [rowA, rowB, rowC] rowB ("AAPL", 10) (by decide) (by decide)
      (by decide) [rowA, rowB, rowC] (List.Perm.refl _),
    C4_dedup_keeps_highest_volume [rowA, rowB, rowC] rowB ("AAPL", 10) (by decide) (by decide)
      (by decide) [rowC, rowB, rowA] (by decide)⟩


/-! ### More precompute status facts -/

theorem runPrecomputes_industryStatus (k : String) (prec : PrecSpec) (st : SysState) :
    lookupA (runPrecomputes k prec st).industryStatus k = some ⟨prec.industryOk, false⟩ := by
  unfold runPrecomputes prewarm_sector_caches precompute_stock_returns
    precompute_industry_series precompute_sector_series
  split_ifs <;> simp_all [lookupA_setA_self]

theorem runPrecomputes_returnsStatus (k : String) (prec : PrecSpec) (st : SysState) :
    lookupA (runPrecomputes k prec st).returnsStatus k = some ⟨prec.returnsOk, false⟩ := by
  unfold runPrecomputes prewarm_sector_caches precompute_stock_returns
    precompute_industry_series precompute_sector_series
  split_ifs <;> simp_all [lookupA_setA_self]

theorem runPrecomputes_prewarmStatus (k : String) (prec : PrecSpec) (st : SysState) :
    lookupA (runPrecomputes k prec st).prewarmStatus k = some ⟨prec.prewarmOk, false⟩ := by
  unfold runPrecomputes prewarm_sector_caches precompute_stock_returns
    precompute_industry_series precompute_sector_series
  split_ifs <;> simp_all [lookupA_setA_self]

/-- The row count reported by the loader run inside
`refresh_single_index` (lines 522-525). -/
def refreshRC (index_key : String) (st : SysState) (env : LoadEnv) (fault : LoadFault) : Nat :=
  (load_index_from_bq index_key (refreshReset index_key st).indexLoadStatus
    (refreshReset index_key st).db env fault).1

/-- The violating prefix for C6 — refresh task 1 runs up to awaiting
its sector precompute (which has begun in an executor thread), refresh
task 2 (scheduled by a second webhook while task 1 is in flight) then
runs its synchronous reset-and-mark-loading prefix on the event loop,
after which task 1's executor thread finishes the sector precompute
and marks it ready. -/
def c6ViolationSteps : List RAct :=
  [.resetSeries, .setLoading, .finishLoad 1, .sectorBegin, .resetSeries, .setLoading,
   .sectorEnd true]

/-- Any completion of the two tasks after the violating prefix. -/
def c6RestSteps : List RAct :=
  [.industryBegin, .industryEnd true, .returnsBegin, .returnsEnd true, .prewarmBegin,
   .prewarmEnd true, .finishLoad 2, .sectorBegin, .sectorEnd true, .industryBegin,
   .industryEnd true, .returnsBegin, .returnsEnd true, .prewarmBegin, .prewarmEnd true]

def c6Trace : List RAct := c6ViolationSteps ++ c6RestSteps

/-- C6 counterexample: two overlapping `refresh_single_index` runs for
the same dataset (which the source permits — the refresh path has no
in-flight check) admit an interleaving whose reachable intermediate
state has the sector series marked ready while the dataset's registry
status is Loading, not Loaded: the first refresh's sector precompute
completes (in its executor thread) after the second refresh has reset
the status to Loading. -/
theorem C6_counterexample :
    Interleaving (refreshTask 1) (refreshTask 2) c6Trace ∧
    c6Trace = c6ViolationSteps ++ c6RestSteps ∧
    (execActs cInit c6ViolationSteps).sectorReady = true ∧
    (execActs cInit c6ViolationSteps).loaded = false ∧
    (execActs cInit c6ViolationSteps).loading = true := by
  refine ⟨?_, rfl, by decide, by decide, by decide⟩
  repeat
    first
    | exact Interleaving.nil
    | apply Interleaving.left
    | apply Interleaving.right

/-- C6 (amended): within one (non-overlapped) load/refresh of a
dataset, the sequencing invariant holds: `refresh_single_index` runs
the series precomputers only after its loader run has returned
`row_count > 0` — when the load reports 0 rows every derivation status
stays "not ready, not computing" — and in the resulting state a sector
series marked ready entails that the dataset is Loaded with a positive
row count.  (The global any-reachable-state form of the claim fails
only for overlapping refreshes of one dataset; see the
counterexample.) -/
theorem C6_amended (index_key : String) (st : SysState) (env : LoadEnv) (fault : LoadFault)
    (prec : PrecSpec) :
    lookupA (refresh_single_index index_key st env fault prec).indexLoadStatus index_key
      = some ⟨decide (0 < refreshRC index_key st env fault), false,
          refreshRC index_key st env fault⟩ ∧
    (refreshRC index_key st env fault = 0 →
      lookupA (refresh_single_index index_key st env fault prec).sectorStatus index_key
        = some ⟨false, false⟩ ∧
      lookupA (refresh_single_index index_key st env fault prec).industryStatus index_key
        = some ⟨false, false⟩ ∧
      lookupA (refresh_single_index index_key st env fault prec).returnsStatus index_key
        = some ⟨false, false⟩ ∧
      lookupA (refresh_single_index index_key st env fault prec).prewarmStatus index_key
        = some ⟨false, false⟩) ∧
    (0 < refreshRC index_key st env fault →
      lookupA (refresh_single_index index_key st env fault prec).sectorStatus index_key
        = some ⟨prec.sectorOk, false⟩ ∧
      lookupA (refresh_single_index index_key st env fault prec).industryStatus index_key
        = some ⟨prec.industryOk, false⟩ ∧
      lookupA (refresh_single_index index_key st env fault prec).returnsStatus index_key
        = some ⟨prec.returnsOk, false⟩) ∧
    (∀ ss : SeriesStatus,
      lookupA (refresh_single_index index_key st env fault prec).sectorStatus index_key
        = some ss → ss.ready = true →
      lookupA (refresh_single_index index_key st env fault prec).indexLoadStatus index_key
        = some ⟨true, false, refreshRC index_key st env fault⟩ ∧
      0 < refreshRC index_key st env fault) := by
  have hidx :
      lookupA (refresh_single_index index_key st env fault prec).indexLoadStatus index_key
        = some ⟨decide (0 < refreshRC index_key st env fault), false,
            refreshRC index_key st env fault⟩ := by
    simp only [refresh_single_index, refreshRC]
    split
    · rw [runPrecomputes_indexLoadStatus]
      exact lookupA_setA_self _ _ _
    · exact lookupA_setA_self _ _ _
  have hzero : refreshRC index_key st env fault = 0 →
      lookupA (refresh_single_index index_key st env fault prec).sectorStatus index_key
        = some ⟨false, false⟩ ∧
      lookupA (refresh_single_index index_key st env fault prec).industryStatus index_key
        = some ⟨false, false⟩ ∧
      lookupA (refresh_single_index index_key st env fault prec).returnsStatus index_key
        = some ⟨false, false⟩ ∧
      lookupA (refresh_single_index index_key st env fault prec).prewarmStatus index_key
        = some ⟨false, false⟩ := by
    intro h0
    simp only [refresh_single_index]
    split
    · rename_i hp
      exact absurd h0 (Nat.pos_iff_ne_zero.mp hp)
    · exact ⟨lookupA_setA_self _ _ _, lookupA_setA_self _ _ _, lookupA_setA_self _ _ _,
        lookupA_setA_self _ _ _⟩
  have hpos : 0 < refreshRC index_key st env fault →
      lookupA (refresh_single_index index_key st env fault prec).sectorStatus index_key
        = some ⟨prec.sectorOk, false⟩ ∧
      lookupA (refresh_single_index index_key st env fault prec).industryStatus index_key
        = some ⟨prec.industryOk, false⟩ ∧
      lookupA (refresh_single_index index_key st env fault prec).returnsStatus index_key
        = some ⟨prec.returnsOk, false⟩ := by
    intro h0
    simp only [refresh_single_index]
    split
    · exact ⟨runPrecomputes_sectorStatus _ _ _, runPrecomputes_industryStatus _ _ _,
        runPrecomputes_returnsStatus _ _ _⟩
    · rename_i hp
      exact absurd h0 hp
  refine ⟨hidx, hzero, hpos, ?_⟩
  intro ss hss hready
  by_cases h0 : 0 < refreshRC index_key st env fault
  · have hdec : decide (0 < refreshRC index_key st env fault) = true := by
      simp [h0]
    rw [hdec] at hidx
    exact ⟨hidx, h0⟩
  · have h0z : refreshRC index_key st env fault = 0 := Nat.eq_zero_of_not_pos h0
    have := (hzero h0z).1
    rw [this] at hss
    cases hss
    simp at hready


/-- Witness for C6 (amended), on a concrete failed refresh (fetch
fault): the load reports 0 rows and no derivation is started. -/
theorem C6_amended_witness :
    refreshRC "sp500" initState ⟨5, 1, 2, 5⟩ .fetch = 0 ∧
    lookupA (refresh_single_index "sp500" initState ⟨5, 1, 2, 5⟩ .fetch
      precAllOk).sectorStatus "sp500" = some ⟨false, false⟩ ∧
    lookupA (refresh_single_index "sp500" initState ⟨5, 1, 2, 5⟩ .fetch
      precAllOk).indexLoadStatus "sp500" = some ⟨false, false, 0⟩ :=
  ⟨by decide,
    ((C6_amended "sp500" initState ⟨5, 1, 2, 5⟩ .fetch precAllOk).2.1 (by decide)).1,
    by decide⟩

/-- A concrete phase-2 timing allowed by `preload_all_indices`: both
priority loads run over [0, 5]; the phase-2 per-index loads run over
[10, 20]; the index-prices load runs over [10, 11] and finishes first. -/
def schedC8 : Schedule :=
  { startT := fun k => if k ∈ phase1Keys then 0 else 10
    finishT := fun k => if k ∈ phase1Keys then 5 else if k = "index_prices" then 11 else 20 }

/-- C8 counterexample: the index-level prices dataset does not load
last.  Its load is gathered concurrently with the remaining per-index
loads in phase 2 (`asyncio.gather(*phase2_tasks)` imposes no order),
so an admissible execution of the startup sequence can complete the
index-prices load before a per-index load (here `csi300`) completes. -/
theorem C8_counterexample :
    AdmissibleSchedule schedC8 ∧ "csi300" ∈ MARKET_INDICES ∧
    schedC8.finishT "index_prices" < schedC8.finishT "csi300" := by
  refine ⟨⟨?_, ?_⟩, by decide, by decide⟩ <;> decide

/-- C8 (amended): during startup preload the priority datasets
(stoxx50, sp500) load first — every phase-2 task, the index-prices
load included, starts only after both priority loads have finished, so
the index-prices load completes no earlier than the priority loads.
No completion order holds between the index-prices load and the
remaining per-index loads: they are gathered concurrently in phase 2. -/
theorem C8_amended (s : Schedule) (h : AdmissibleSchedule s) :
    (∀ k2 ∈ phase2Keys, s.finishT "stoxx50" ≤ s.startT k2 ∧ s.finishT "sp500" ≤ s.startT k2) ∧
    s.finishT "stoxx50" ≤ s.finishT "index_prices" ∧
    s.finishT "sp500" ≤ s.finishT "index_prices" := by
  obtain ⟨h1, h2⟩ := h
  have hip2 : "index_prices" ∈ phase2Keys := by decide
  have hipA : "index_prices" ∈ phase1Keys ++ phase2Keys := by decide
  have hs1 : "stoxx50" ∈ phase1Keys := by decide
  have hs2 : "sp500" ∈ phase1Keys := by decide
  refine ⟨fun k2 hk2 => ⟨h2 _ hs1 _ hk2, h2 _ hs2 _ hk2⟩, ?_, ?_⟩
  · exact le_trans (h2 _ hs1 _ hip2) (h1 _ hipA)
  · exact le_trans (h2 _ hs2 _ hip2) (h1 _ hipA)

/-- Witness for C8 (amended) on the concrete admissible schedule. -/
theorem C8_amended_witness :
    AdmissibleSchedule schedC8 ∧
    schedC8.finishT "stoxx50" ≤ schedC8.finishT "index_prices" ∧
    schedC8.finishT "sp500" ≤ schedC8.finishT "index_prices" := by
  have hadm : AdmissibleSchedule schedC8 := ⟨by decide, by decide⟩
  exact ⟨hadm, (C8_amended schedC8 hadm).2.1, (C8_amended schedC8 hadm).2.2⟩

end Dashboard
